import Mathlib

/-!
# clusterssh: a shallow embedding of `client.go` and `cmd/clusterssh/main.go`

The library calls of the program (`ssh.Dial`, `NewSession`, `StdinPipe`,
`RequestPty`, `Session.Run`, `os.Open`, `ssh.ParsePrivateKey`, ...) are inputs of
the model: their outcomes are carried by the values `Client`, `Session` and
`World`.  Go errors are `Option String` (`none` is `nil`), bytes are natural
numbers, a Go `(value, err)` pair is a Lean pair, and a goroutine is a task that
a schedule (a list of task indices) advances one step at a time.
-/

namespace Clusterssh

/-! ## Data model (`client.go`) -/

/-- The interrupt byte, `const CTRL_C_CODE = '\x03'`. -/
def CTRL_C_CODE : Nat := 0x03

/-- The end-of-input byte, `const EOF_CODE = '\x04'`. -/
def EOF_CODE : Nat := 0x04

/-- An `io.WriteCloser` handle (the stdin pipe of one remote session), by identity. -/
abbrev Writer := Nat

/-- An `ssh.Signer`, by identity. -/
abbrev Signer := Nat

/-- An `ssh.AuthMethod`: `ssh.PublicKeys(signers...)` or `ssh.Password(p)`.
A slot of the signer list is `none` when the Go interface value is `nil`. -/
inductive AuthMethod where
  | publicKeys (signers : List (Option Signer))
  | password (secret : String)
  deriving DecidableEq

/-- The struct `Host`; `Password` is `*string`, `none` is the `nil` pointer. -/
structure Host where
  Name : String
  Port : String
  User : String
  Password : Option String
  deriving DecidableEq

/-- The struct `Cluster`. -/
structure Cluster where
  Hosts : List Host
  deriving DecidableEq

/-- The struct `Result`; `Error` is `none` for a `nil` error. -/
structure Result where
  Output : String
  Error : Option String
  Host : Host
  deriving DecidableEq

/-- The fields of `ssh.ClientConfig` that `Cluster.Run` sets. -/
structure ClientConfig where
  User : String
  Auth : List AuthMethod
  deriving DecidableEq

/-- A buffered Go channel: its capacity and the values sent and not yet received. -/
structure Chan (α : Type) where
  cap : Nat
  buf : List α
  deriving DecidableEq

/-- The struct `Command`. -/
structure Command where
  Results : Chan Result
  stdins : List Writer
  deriving DecidableEq

/-! ## The remote side, as seen by `Host.run` -/

/-- What an `*ssh.Session` answers to the three calls `Host.run` makes on it. -/
structure Session where
  StdinPipe : Except String Writer
  RequestPty : String → Nat → Nat → List (Nat × Nat) → Option String
  Run : String → Option String × String

/-- What an `*ssh.Client` answers to `NewSession`. On an error the session
pointer that comes with it is `nil`. -/
structure Client where
  NewSession : Except String Session

/-- How `Host.run` ends: it returns its `Result`, or a deferred call panics. -/
inductive Exit where
  | returned (result : Result)
  | panicked (reason : String)
  deriving DecidableEq

/-- The observable effects of one call of `Host.run`: the values sent on the
`stdins` channel in order, the writes handed to the input goroutine, and the way
the call ends. -/
structure RunTrace where
  published : List (Option Writer)
  pipeWrites : List (Writer × List Nat)
  exit : Exit
  deriving DecidableEq

/-- The method `(*ssh.Session).Close` of golang.org/x/crypto/ssh, whose body is
`return s.ch.Close()`: it reads a field of its receiver, so a `nil` receiver is a
nil pointer dereference; on a session its error value is dropped by `defer`. -/
def Session.Close : Option Session → Except String Unit
  | none => .error "runtime error: invalid memory address or nil pointer dereference"
  | some _ => .ok ()

/-- The statement `defer session.Close()` of `Host.run`, at a `return result`
that comes after it: the deferred call runs before the caller gets `result`. -/
def deferredClose (session : Option Session) (result : Result) : Exit :=
  match Session.Close session with
  | .ok _ => .returned result
  | .error reason => .panicked reason

/-- The terminal modes `Host.run` requests: `ssh.ECHO` (53) off and both
`ssh.TTY_OP_ISPEED` (128) and `ssh.TTY_OP_OSPEED` (129) at 14400. -/
def terminalModes : List (Nat × Nat) := [(53, 0), (128, 14400), (129, 14400)]

/-- The method `Host.run`. `conn` is the outcome of
`ssh.Dial("tcp", net.JoinHostPort(host.Name, host.Port), config)`. -/
def Host.run (host : Host) (cmd : String) (cmdStdin : List Nat) (_config : ClientConfig)
    (conn : Except String Client) : RunTrace :=
  let result : Result := { Output := "", Error := none, Host := host }
  match conn with
  | .error err =>
    { published := [none], pipeWrites := [],
      exit := .returned { result with Error := some ("Unable to connect: " ++ err) } }
  | .ok client =>
    match client.NewSession with
    | .error err =>
      { published := [none], pipeWrites := [],
        exit := deferredClose none
          { result with Error := some ("Unable to get ssh session: " ++ err) } }
    | .ok session =>
      match session.StdinPipe with
      | .error err =>
        { published := [none], pipeWrites := [],
          exit := deferredClose (some session)
            { result with Error := some ("Unable to get stdin: " ++ err) } }
      | .ok pipe =>
        let writes := [(pipe, cmdStdin), (pipe, [EOF_CODE])]
        match session.RequestPty "xterm" 80 40 terminalModes with
        | some err =>
          { published := [], pipeWrites := writes,
            exit := deferredClose (some session)
              { result with Error := some ("failed to request pty: " ++ err) } }
        | none =>
          let out := session.Run cmd
          { published := [some pipe], pipeWrites := writes,
            exit := deferredClose (some session)
              { result with Error := out.1, Output := out.2 } }

/-- The input writer of a host whose four setup steps (connect, open session,
acquire the stdin pipe, request the PTY) all succeed; `none` when one fails. -/
def setupWriter (conn : Except String Client) : Option Writer :=
  match conn with
  | .error _ => none
  | .ok client =>
    match client.NewSession with
    | .error _ => none
    | .ok session =>
      match session.StdinPipe with
      | .error _ => none
      | .ok pipe =>
        match session.RequestPty "xterm" 80 40 terminalModes with
        | some _ => none
        | none => some pipe

/-! ## The credential resolver (`makeSigner`, `createKeyring`) -/

/-- The environment of one run of the program: the value of `$HOME`, what
`os.Open` followed by `ioutil.ReadAll` gives for a path, what
`ssh.ParsePrivateKey` gives for the bytes of a file, and the outcome of the
`ssh.Dial` call of the task started for the `i`-th host of the cluster. -/
structure World where
  home : String
  osOpen : String → Except String (List Nat)
  parsePrivateKey : List Nat → Except String Signer
  dial : Nat → Except String Client

/-- The function `makeSigner`, with its two results `(signer, err)`. The
error of `ssh.ParsePrivateKey` is assigned to `_`, so `err` keeps the `nil` of
the successful `os.Open`, and `signer` is the `nil` that comes with a parse error. -/
def makeSigner (w : World) (keyname : String) : Option Signer × Option String :=
  match w.osOpen keyname with
  | .error err => (none, some err)
  | .ok buf =>
    match w.parsePrivateKey buf with
    | .ok signer => (some signer, none)
    | .error _ => (none, none)

/-- The three well-known key paths of `createKeyring`, in its order. -/
def keyPaths (w : World) : List String :=
  [w.home ++ "/.ssh/id_ecdsa", w.home ++ "/.ssh/id_rsa", w.home ++ "/.ssh/id_dsa"]

/-- The loop of `createKeyring`: the slice `signers` after all key paths. -/
def keyringSigners (w : World) : List (Option Signer) :=
  (keyPaths w).foldl
    (fun signers keyname =>
      let r := makeSigner w keyname
      if r.2 = none then signers ++ [r.1] else signers)
    []

/-- The function `createKeyring`. -/
def createKeyring (w : World) : AuthMethod :=
  .publicKeys (keyringSigners w)

/-! ## `Command.SendStopSignal` -/

/-- The method `Command.SendStopSignal`: the command after the call, and the
writes `stdin.Write([]byte{CTRL_C_CODE})` it starts, one goroutine each, in the
order of the loop over `c.stdins`. -/
def Command.SendStopSignal (c : Command) : Command × List (Writer × List Nat) :=
  (c, c.stdins.foldl (fun started stdin => started ++ [(stdin, [CTRL_C_CODE])]) [])

/-! ## `Cluster.Run`: the per-host goroutines and the receive loop -/

/-- Where the goroutine of one host stands. `created`: started by the `go`
statement, body not begun. `appended`: past the `if host.Password != nil`
statement. `running`: inside `host.run`, with the values it still has to send on
`stdinChan` and the way the call ends. `finished`: its `Result` is on `results`. -/
inductive Phase where
  | created
  | appended
  | running (config : ClientConfig) (pending : List (Option Writer)) (exit : Exit)
  | finished (config : ClientConfig)
  deriving DecidableEq

/-- The goroutine started for the host at position `idx` of `c.Hosts`. -/
structure Task where
  idx : Nat
  host : Host
  phase : Phase
  deriving DecidableEq

/-- The state of one call of `Cluster.Run`: the captured variable `auth`, the
channel `results`, the goroutines, the number of values the receive loop has
taken from `stdinChan`, the slice `stdins`, and whether a goroutine panicked
(which ends the process). -/
structure RunState where
  auth : List AuthMethod
  results : Chan Result
  tasks : List Task
  received : Nat
  stdins : List Writer
  crashed : Bool
  deriving DecidableEq

/-- The goroutines of the loop `for _, host := range c.Hosts { go func(host Host) ... }`. -/
def spawn : Nat → List Host → List Task
  | _, [] => []
  | n, host :: hosts => { idx := n, host := host, phase := .created } :: spawn (n + 1) hosts

/-- The state of `Cluster.Run` once all goroutines are started:
`auth := []ssh.AuthMethod{createKeyring()}`, `results := make(chan Result, 100)`,
nothing received, `var stdins []io.WriteCloser`. -/
def Cluster.init (c : Cluster) (w : World) : RunState :=
  { auth := [createKeyring w]
    results := { cap := 100, buf := [] }
    tasks := spawn 0 c.Hosts
    received := 0
    stdins := []
    crashed := false }

/-- One step of the goroutine at position `i`, when it can move; the state is
unchanged when it is blocked, ended, absent, or the process has crashed.
A send on the unbuffered `stdinChan` needs the receive loop of `Cluster.Run`
to be at one of its `len(c.Hosts)` receives; a send on `results` needs room in
the buffer (nothing receives from it before `Cluster.Run` returns). -/
def RunState.step (c : Cluster) (w : World) (cmd : String) (cmdStdin : List Nat)
    (s : RunState) (i : Nat) : RunState :=
  if s.crashed then s
  else
    match s.tasks[i]? with
    | none => s
    | some t =>
      match t.phase with
      | .created =>
        let auth :=
          match t.host.Password with
          | some p => s.auth ++ [AuthMethod.password p]
          | none => s.auth
        { s with auth := auth, tasks := s.tasks.set i { t with phase := .appended } }
      | .appended =>
        let config : ClientConfig := { User := t.host.User, Auth := s.auth }
        let tr := t.host.run cmd cmdStdin config (w.dial t.idx)
        { s with tasks := s.tasks.set i { t with phase := .running config tr.published tr.exit } }
      | .running config (v :: pending) exit =>
        if s.received < c.Hosts.length then
          { s with
            received := s.received + 1
            stdins :=
              match v with
              | some stdin => s.stdins ++ [stdin]
              | none => s.stdins
            tasks := s.tasks.set i { t with phase := .running config pending exit } }
        else s
      | .running config [] (.returned result) =>
        if s.results.buf.length < s.results.cap then
          { s with
            results := { s.results with buf := s.results.buf ++ [result] }
            tasks := s.tasks.set i { t with phase := .finished config } }
        else s
      | .running _ [] (.panicked _) => { s with crashed := true }
      | .finished _ => s

/-- The state after the goroutines have taken the steps of a schedule. -/
def Cluster.exec (c : Cluster) (w : World) (cmd : String) (cmdStdin : List Nat)
    (sched : List Nat) : RunState :=
  sched.foldl (RunState.step c w cmd cmdStdin) (c.init w)

/-- The value `Cluster.Run` returns in a state, if its receive loop is over
there: `Command{results, stdins}`. -/
def RunState.returnValue (c : Cluster) (s : RunState) : Option Command :=
  if s.crashed then none
  else if s.received = c.Hosts.length then some { Results := s.results, stdins := s.stdins }
  else none

/-- The receive loop of `Cluster.Run` against a schedule of the goroutines: the
`Command` returned at the first state where all `len(c.Hosts)` receives are
done, `none` when the schedule ends (or the process crashes) before that. -/
def RunState.await (c : Cluster) (w : World) (cmd : String) (cmdStdin : List Nat) :
    RunState → List Nat → Option Command
  | s, [] => s.returnValue c
  | s, i :: sched =>
    match s.returnValue c with
    | some command => some command
    | none => RunState.await c w cmd cmdStdin (s.step c w cmd cmdStdin i) sched

/-- The method `Cluster.Run`, under a schedule of its goroutines. -/
def Cluster.Run (c : Cluster) (w : World) (cmd : String) (cmdStdin : List Nat)
    (sched : List Nat) : Option Command :=
  RunState.await c w cmd cmdStdin (c.init w) sched

/-- The `config` each goroutine has built in a state (`none`: not built yet). -/
def RunState.configs (s : RunState) : List (Option ClientConfig) :=
  s.tasks.map fun t =>
    match t.phase with
    | .created => none
    | .appended => none
    | .running config _ _ => some config
    | .finished config => some config

/-! ## Host specifications (`ParseHost`) -/

/-- Go's `strings.IndexByte`: the first position of `c`, if any. -/
def indexByte (c : Char) : List Char → Option Nat
  | [] => none
  | x :: xs => if x = c then some 0 else (indexByte c xs).map (· + 1)

/-- Go's `strings.LastIndexByte`: the last position of `c`, if any. -/
def lastIndexByte (c : Char) : List Char → Option Nat
  | [] => none
  | x :: xs =>
    match lastIndexByte c xs with
    | some i => some (i + 1)
    | none => if x = c then some 0 else none

/-- The function `net.SplitHostPort` of the Go standard library, with its three
results `(host, port, err)`; every error return is `"", "", err`. -/
def net.SplitHostPort (hostport : List Char) : List Char × List Char × Option String :=
  let addrErr (why : String) : List Char × List Char × Option String := ([], [], some why)
  match lastIndexByte ':' hostport with
  | none => addrErr "missing port in address"
  | some i =>
    let bracketed : Except String (List Char × Nat × Nat) :=
      if hostport.head? = some '[' then
        match indexByte ']' hostport with
        | none => .error "missing ']' in address"
        | some e =>
          if e + 1 = hostport.length then .error "missing port in address"
          else if e + 1 = i then .ok ((hostport.take e).drop 1, 1, e + 1)
          else if hostport.get? (e + 1) = some ':' then .error "too many colons in address"
          else .error "missing port in address"
      else
        let host := hostport.take i
        if (indexByte ':' host).isSome then .error "too many colons in address"
        else .ok (host, 0, 0)
    match bracketed with
    | .error why => addrErr why
    | .ok (host, j, k) =>
      if (indexByte '[' (hostport.drop j)).isSome then addrErr "unexpected '[' in address"
      else if (indexByte ']' (hostport.drop k)).isSome then addrErr "unexpected ']' in address"
      else (host, hostport.drop (i + 1), none)

/-- The type `url.Userinfo`: `Username()` and the two results of `Password()`. -/
structure Userinfo where
  username : String
  password : String
  passwordSet : Bool
  deriving DecidableEq

/-- The two fields of `url.URL` that `ParseHost` reads. -/
structure URL where
  User : Option Userinfo
  Host : String
  deriving DecidableEq

/-- The characters of a host name, a user name or a port that need no escaping
in a URL: letters, digits and `- . _ ~`. -/
def plainChar (c : Char) : Bool :=
  c.isAlphanum || c = '-' || c = '.' || c = '_' || c = '~'

/-- Whether a string is `host` or `host:port`, with a non-empty host of plain
characters and a non-empty port of digits. -/
def plainHostPort (hostport : List Char) : Bool :=
  match indexByte ':' hostport with
  | none => !hostport.isEmpty && hostport.all plainChar
  | some i =>
    i ≠ 0 && (hostport.take i).all plainChar &&
      !(hostport.drop (i + 1)).isEmpty && (hostport.drop (i + 1)).all Char.isDigit

/-- The `url.URL` of `ssh://` followed by a host specification of the plain
form `[user[:password]@]host[:port]` (user and host non-empty and of plain
characters, the password of plain characters and colons, the port non-empty and
of digits): the part before
the `@` is the user information, cut at its first colon into user name and
password, and the part after it is `Host`, port included. `none` for a string
that is not of this form. -/
def url.parsePlain (input : List Char) : Option URL :=
  match indexByte '@' input with
  | none =>
    if plainHostPort input then some { User := none, Host := String.mk input } else none
  | some i =>
    let userinfo := input.take i
    let host := input.drop (i + 1)
    if userinfo.head?.any plainChar && userinfo.all (fun c => plainChar c || c = ':') &&
        plainHostPort host then
      match indexByte ':' userinfo with
      | none =>
        some { User := some { username := String.mk userinfo, password := "",
                              passwordSet := false },
               Host := String.mk host }
      | some k =>
        some { User := some { username := String.mk (userinfo.take k),
                              password := String.mk (userinfo.drop (k + 1)),
                              passwordSet := true },
               Host := String.mk host }
    else none

/-- The call `url.Parse("ssh://" + input)` of `ParseHost`. For an `input` of
the plain form `[user[:password]@]host[:port]` the answer of net/url is
computed by `url.parsePlain`; for every other raw URL the answer is the one of
the library, `lib`, which is an input of the model. -/
def url.Parse (lib : String → Except String URL) (input : String) : Except String URL :=
  match url.parsePlain input.toList with
  | some u => .ok u
  | none => lib ("ssh://" ++ input)

/-- The function `ParseHost`; `lib` is `url.Parse` of net/url and `userEnv` is
`os.Getenv("USER")`. -/
def ParseHost (lib : String → Except String URL) (userEnv : String) (input : String) :
    Except String Host :=
  match url.Parse lib input with
  | .error err => .error err
  | .ok u =>
    let user : String × Option String :=
      match u.User with
      | some info => (info.username, if info.passwordSet then some info.password else none)
      | none => (if userEnv = "" then "root" else userEnv, none)
    let split := net.SplitHostPort u.Host.toList
    let name := split.1
    let port := split.2.1
    let err := split.2.2
    if err = none ∨ name = [] then
      .ok { Name := u.Host, Port := "22", User := user.1, Password := user.2 }
    else
      .ok { Name := String.mk name, Port := String.mk port, User := user.1, Password := user.2 }

/-! ## The command-line program (`cmd/clusterssh/main.go`) -/

/-- The struct `Options`. -/
structure Options where
  cmd : String
  hosts : Cluster
  deriving DecidableEq

/-- How a call of `parseArgs` ends: with `(options, nil)`, with `(nil, err)`, or
in a run-time panic. -/
inductive ArgsResult where
  | ok (options : Options)
  | error (err : String)
  | panicked (reason : String)
  deriving DecidableEq

/-- The loop of `parseArgs` over `args[2:]`. -/
def parseHosts (lib : String → Except String URL) (userEnv : String) :
    List String → Except String (List Host)
  | [] => .ok []
  | arg :: args =>
    match ParseHost lib userEnv arg with
    | .error err => .error ("invalid host '" ++ arg ++ "': " ++ err)
    | .ok host =>
      match parseHosts lib userEnv args with
      | .error err => .error err
      | .ok hosts => .ok (host :: hosts)

/-- The function `parseArgs`. With fewer than two arguments the usage message
reads `args[0]`, an index out of range when there is no argument at all. -/
def parseArgs (lib : String → Except String URL) (userEnv : String) (args : List String) :
    ArgsResult :=
  if args.length < 2 then
    match args with
    | [] => .panicked "runtime error: index out of range [0] with length 0"
    | program :: _ => .error ("USAGE: " ++ program ++ " cmd hosts...")
  else
    match parseHosts lib userEnv (args.drop 2) with
    | .error err => .error err
    | .ok hosts => .ok { cmd := args.getD 1 "", hosts := { Hosts := hosts } }

/-- The variable `input` of `main` at the call of `Run`: `stdinIsTerminal` is
`terminal.IsTerminal(int(os.Stdin.Fd()))` and `stdin` is what
`ioutil.ReadAll(os.Stdin)` reads. -/
def main.input (stdinIsTerminal : Bool) (stdin : List Nat) : List Nat :=
  if stdinIsTerminal then stdin else []

/-- What the `select` of the loop of `main` can receive: a `Result` from
`cmd.Results`, a signal from `signalChan`, or the value of an expired timer from
`timeout`. -/
inductive LoopEvent where
  | result (res : Result)
  | signal
  | timeout
  deriving DecidableEq

/-- The state of the loop of `main`: the counter `runningHosts`, the results
printed, the calls of `cmd.SendStopSignal()` made, and the timer goroutines
started. -/
structure LoopState where
  runningHosts : Int
  printed : List Result
  stopSignals : Nat
  timers : Nat
  deriving DecidableEq

/-- Where the loop of `main` stands after a sequence of events: `main` has
returned, or the `select` is blocked waiting for the next event. -/
inductive LoopOutcome where
  | returned (s : LoopState)
  | waiting (s : LoopState)
  deriving DecidableEq

/-- The loop `for { select { ... } }` of `main`. With no event left the
`select` blocks. A value on `timeout` exists only after a timer goroutine was
started, so a `timeout` event with no timer started does not occur and is passed
over. -/
def main.loop : LoopState → List LoopEvent → LoopOutcome
  | s, [] => .waiting s
  | s, .result res :: events =>
    let s1 := { s with printed := s.printed ++ [res], runningHosts := s.runningHosts - 1 }
    if s1.runningHosts ≤ 0 then .returned s1 else main.loop s1 events
  | s, .signal :: events =>
    main.loop { s with stopSignals := s.stopSignals + 1, timers := s.timers + 1 } events
  | s, .timeout :: events =>
    if 0 < s.timers then .returned s else main.loop s events

/-- The state in which `main` enters its loop: `runningHosts := len(options.hosts)`. -/
def main.start (options : Options) : LoopState :=
  { runningHosts := options.hosts.Hosts.length, printed := [], stopSignals := 0, timers := 0 }

/-- How a run of `main` stands: ended by a run-time panic, exit with status 1
on an argument error, blocked inside `Cluster.Run`, or in (or past) its loop. -/
inductive MainOutcome where
  | panicked (reason : String)
  | exit1 (message : String)
  | blockedInRun
  | loop (outcome : LoopOutcome)
  deriving DecidableEq

/-- The function `main`, for given arguments, environment, standard input,
schedule of the goroutines of `Cluster.Run` and events of its loop. -/
def main (lib : String → Except String URL) (userEnv : String) (args : List String)
    (stdinIsTerminal : Bool) (stdin : List Nat) (w : World) (sched : List Nat)
    (events : List LoopEvent) : MainOutcome :=
  match parseArgs lib userEnv args with
  | .panicked reason => .panicked reason
  | .error err => .exit1 err
  | .ok options =>
    match options.hosts.Run w options.cmd (main.input stdinIsTerminal stdin) sched with
    | none => .blockedInRun
    | some _ => .loop (main.loop (main.start options) events)

/-- The schedule in which the goroutines `k`, `k + 1`, ... (`n` of them) run
one after the other, each up to its send on `stdinChan` (three steps). -/
def setupSchedule : Nat → Nat → List Nat
  | _, 0 => []
  | k, n + 1 => k :: k :: k :: setupSchedule (k + 1) n

/-! ## Bookkeeping for the invariants of `Cluster.Run` -/

/-- The values a call of `Host.run` sends on `stdins`, as a function of the
outcome of its `ssh.Dial` (see `Host.run_published`). -/
def Host.reports (conn : Except String Client) : List (Option Writer) :=
  match conn with
  | .error _ => [none]
  | .ok client =>
    match client.NewSession with
    | .error _ => [none]
    | .ok session =>
      match session.StdinPipe with
      | .error _ => [none]
      | .ok pipe =>
        match session.RequestPty "xterm" 80 40 terminalModes with
        | some _ => []
        | none => [some pipe]

/-- The values a goroutine has already handed to the receive loop. -/
def Task.sent (w : World) (t : Task) : List (Option Writer) :=
  match t.phase with
  | .created => []
  | .appended => []
  | .running _ pending _ => if pending = [] then Host.reports (w.dial t.idx) else []
  | .finished _ => Host.reports (w.dial t.idx)

/-- Whether the goroutine has put its `Result` on `results`. -/
def Task.delivered (t : Task) : Bool :=
  match t.phase with
  | .finished _ => true
  | _ => false

/-- The invariant of the states of `Cluster.Run`. -/
structure Inv (c : Cluster) (w : World) (s : RunState) : Prop where
  idx : s.tasks.map Task.idx = List.range c.Hosts.length
  pending : ∀ t ∈ s.tasks, ∀ config p e, t.phase = .running config p e →
    p = Host.reports (w.dial t.idx) ∨ p = []
  received : s.received = (s.tasks.flatMap (Task.sent w)).length
  stdins : s.stdins.Perm (s.tasks.flatMap (Task.sent w)).reduceOption
  cap : s.results.cap = 100
  buf : s.results.buf.length = s.tasks.countP Task.delivered

/-! ## Concrete inputs used by the closed statements -/

/-- A world with no key file in which every `ssh.Dial` is refused. -/
def World.unreachable : World :=
  { home := "/home/u"
    osOpen := fun _ => .error "no such file or directory"
    parsePrivateKey := fun _ => .error "ssh: no key found"
    dial := fun _ => .error "connection refused" }

/-- A session whose stdin pipe is the writer `pipe` and whose PTY request and
command succeed, the command printing `hi`. -/
def Session.ready (pipe : Writer) : Session :=
  { StdinPipe := .ok pipe
    RequestPty := fun _ _ _ _ => none
    Run := fun _ => (none, "hi\n") }

/-- A session whose stdin pipe is the writer `pipe` and whose PTY request is refused. -/
def Session.ptyRefused (pipe : Writer) : Session :=
  { StdinPipe := .ok pipe
    RequestPty := fun _ _ _ _ => some "pty refused"
    Run := fun _ => (none, "") }

/-- A world in which every host is reached, opens a session and gets its stdin
pipe, and refuses the PTY request. -/
def World.ptyRefused : World :=
  { World.unreachable with dial := fun i => .ok { NewSession := .ok (Session.ptyRefused i) } }

/-- A world in which every host is reached and refuses to open a session. -/
def World.sessionRefused : World :=
  { World.unreachable with dial := fun _ => .ok { NewSession := .error "channel open refused" } }

/-- A world in which host 0 is ready to execute (its writer is 7) and every
other host is unreachable. -/
def World.firstReady : World :=
  { World.unreachable with
    dial := fun i => if i = 0 then .ok { NewSession := .ok (Session.ready 7) }
                     else .error "connection refused" }

/-- A world in which host 0 is ready to execute (its writer is 7) and every
other host gets its stdin pipe (the writer 8) and refuses the PTY request. -/
def World.readyThenPtyRefused : World :=
  { World.unreachable with
    dial := fun i => if i = 0 then .ok { NewSession := .ok (Session.ready 7) }
                     else .ok { NewSession := .ok (Session.ptyRefused 8) } }

/-- A world whose only key file is `id_rsa`, with contents no key parses from
(as for a passphrase-protected key). -/
def World.badRsaKey : World :=
  { World.unreachable with
    osOpen := fun path =>
      if path = "/home/u/.ssh/id_rsa" then .ok [45, 45, 45] else .error "no such file or directory" }

/-- A host without a password. -/
def Host.plain (name : String) : Host :=
  { Name := name, Port := "22", User := "root", Password := none }

/-- A host with a password. -/
def Host.withPassword (name secret : String) : Host :=
  { Name := name, Port := "22", User := "root", Password := some secret }

end Clusterssh

/-! # Theorems -/

namespace Clusterssh

theorem foldl_append_singleton {α β : Type} (f : α → β) (l : List α) (init : List β) :
    l.foldl (fun acc x => acc ++ [f x]) init = init ++ l.map f := by
  induction l generalizing init with
  | nil => simp
  | cons x xs ih => simp [ih]

/-- C9: one call of `SendStopSignal` on a command with `k` registered writers
starts exactly `k` writes, the `i`-th to the `i`-th registered writer, each of the
single byte 0x03 (`CTRL_C_CODE`); the command (its result stream and its writer
set) is unchanged; with no registered writer no write is started. -/
theorem SendStopSignal_one_interrupt_byte_per_writer (c : Command) :
    c.SendStopSignal.2 = c.stdins.map (fun stdin => (stdin, [0x03]))
      ∧ c.SendStopSignal.2.length = c.stdins.length
      ∧ c.SendStopSignal.1 = c
      ∧ (∀ results : Chan Result,
          (Command.SendStopSignal { Results := results, stdins := [] }).2 = []) := by
  refine ⟨?_, ?_, rfl, fun _ => rfl⟩
  · simp [Command.SendStopSignal, foldl_append_singleton, CTRL_C_CODE]
  · simp [Command.SendStopSignal, foldl_append_singleton]

/-- C3: when the connect step or the stdin-pipe step fails, `Host.run` sends
`nil` once and returns a `Result` with a non-nil error, empty output and its own
host; when the session step fails it sends `nil` and then the deferred
`session.Close()`, registered before the error check, runs on the nil session and
panics, so no `Result` is returned: in `Cluster.Run` the process has crashed
once that goroutine has run, with no `Result` on the result channel. -/
theorem Host.run_setup_failures (host : Host) (cmd : String) (cmdStdin : List Nat)
    (config : ClientConfig) (err : String) :
    host.run cmd cmdStdin config (.error err) =
        { published := [none], pipeWrites := [],
          exit := .returned { Output := "", Error := some ("Unable to connect: " ++ err),
                              Host := host } }
      ∧ (∀ (pty : String → Nat → Nat → List (Nat × Nat) → Option String)
           (run : String → Option String × String),
          host.run cmd cmdStdin config
              (.ok { NewSession := .ok { StdinPipe := .error err, RequestPty := pty, Run := run } }) =
            { published := [none], pipeWrites := [],
              exit := .returned { Output := "", Error := some ("Unable to get stdin: " ++ err),
                                  Host := host } })
      ∧ host.run cmd cmdStdin config (.ok { NewSession := .error err }) =
          { published := [none], pipeWrites := [],
            exit := .panicked "runtime error: invalid memory address or nil pointer dereference" }
      ∧ (∀ result : Result,
          (host.run cmd cmdStdin config (.ok { NewSession := .error err })).exit ≠
            .returned result)
      ∧ ((Cluster.mk [host]).exec World.sessionRefused cmd cmdStdin [0, 0, 0, 0]).crashed = true
      ∧ ((Cluster.mk [host]).exec World.sessionRefused cmd cmdStdin [0, 0, 0, 0]).results.buf = [] := by
  refine ⟨rfl, fun _ _ => rfl, rfl, fun result h => ?_, rfl, rfl⟩
  simp [Host.run, deferredClose, Session.Close] at h

/-- C6: the code reads standard input exactly when it IS an interactive
terminal: with piped input (not a terminal) the bytes given to `Cluster.Run` are
empty, whatever the pipe holds, and on a terminal they are what is read from it. -/
theorem main.input_read_only_from_terminal (stdin : List Nat) :
    main.input false stdin = [] ∧ main.input true stdin = stdin
      ∧ main.input false [104, 105, 10] = [] := by
  exact ⟨rfl, rfl, rfl⟩

theorem makeSigner_eq (w : World) (keyname : String) :
    makeSigner w keyname =
      match w.osOpen keyname with
      | .error err => (none, some err)
      | .ok buf => ((w.parsePrivateKey buf).toOption, none) := by
  unfold makeSigner
  cases w.osOpen keyname with
  | error err => rfl
  | ok buf => cases h : w.parsePrivateKey buf <;> simp [h, Except.toOption]

theorem keyring_foldl (w : World) (keys : List String) (init : List (Option Signer)) :
    keys.foldl
        (fun signers keyname =>
          let r := makeSigner w keyname
          if r.2 = none then signers ++ [r.1] else signers)
        init =
      init ++ keys.filterMap fun keyname =>
        match w.osOpen keyname with
        | .error _ => none
        | .ok buf => some (w.parsePrivateKey buf).toOption := by
  induction keys generalizing init with
  | nil => simp
  | cons k ks ih =>
    rw [List.foldl_cons, ih, List.filterMap_cons, makeSigner_eq]
    cases w.osOpen k <;> simp

theorem keyringSigners_eq (w : World) :
    keyringSigners w =
      (keyPaths w).filterMap fun keyname =>
        match w.osOpen keyname with
        | .error _ => none
        | .ok buf => some (w.parsePrivateKey buf).toOption := by
  simp [keyringSigners, keyring_foldl]

/-- C7: a key file that opens but does not parse contributes a nil signer:
`createKeyring` offers one entry per file that opens, in the order id_ecdsa,
id_rsa, id_dsa, and the entry is nil when the file does not parse. With only an
unparsable id_rsa present the signer list is the single nil signer. -/
theorem createKeyring_keeps_nil_signer_of_unparsable_key :
    (∀ w : World,
        createKeyring w =
          .publicKeys ((keyPaths w).filterMap fun keyname =>
            match w.osOpen keyname with
            | .error _ => none
            | .ok buf => some (w.parsePrivateKey buf).toOption))
      ∧ makeSigner World.badRsaKey "/home/u/.ssh/id_rsa" = (none, none)
      ∧ createKeyring World.badRsaKey = .publicKeys [none] := by
  refine ⟨fun w => ?_, rfl, ?_⟩
  · simp [createKeyring, keyringSigners_eq]
  · rfl

/-! ## Invariants of `Cluster.Run` -/

theorem getElem?_split {α : Type} {l : List α} {i : Nat} {t : α} (h : l[i]? = some t) :
    ∃ l1 l2, l = l1 ++ t :: l2 ∧ ∀ x, l.set i x = l1 ++ x :: l2 := by
  induction l generalizing i with
  | nil => simp at h
  | cons a l ih =>
    cases i with
    | zero =>
      simp at h
      subst h
      exact ⟨[], l, rfl, fun x => rfl⟩
    | succ i =>
      simp at h
      obtain ⟨l1, l2, h1, h2⟩ := ih h
      refine ⟨a :: l1, l2, by rw [h1]; rfl, fun x => ?_⟩
      rw [List.set_cons_succ, h2 x]; rfl

theorem Host.run_published (host : Host) (cmd : String) (cmdStdin : List Nat)
    (config : ClientConfig) (conn : Except String Client) :
    (host.run cmd cmdStdin config conn).published = Host.reports conn := by
  unfold Host.run Host.reports
  cases conn with
  | error e => rfl
  | ok client =>
    simp only
    cases client.NewSession with
    | error e => rfl
    | ok session =>
      simp only
      cases session.StdinPipe with
      | error e => rfl
      | ok pipe =>
        simp only
        cases session.RequestPty "xterm" 80 40 terminalModes <;> rfl

theorem Host.reports_length_le (conn : Except String Client) :
    (Host.reports conn).length ≤ 1 := by
  unfold Host.reports
  repeat' split
  all_goals simp

theorem Host.reports_reduceOption (conn : Except String Client) :
    (Host.reports conn).reduceOption = (setupWriter conn).toList := by
  unfold Host.reports setupWriter
  repeat' split
  all_goals simp_all [List.reduceOption]

theorem Task.sent_length_le (w : World) (t : Task) : (t.sent w).length ≤ 1 := by
  unfold Task.sent
  split
  · simp
  · simp
  · split
    · exact Host.reports_length_le _
    · simp
  · exact Host.reports_length_le _

theorem Inv.init (c : Cluster) (w : World) : Inv c w (c.init w) := by
  have hspawn : ∀ (hosts : List Host) (n : Nat),
      (spawn n hosts).map Task.idx = List.range' n hosts.length
        ∧ (∀ t ∈ spawn n hosts, t.phase = .created) := by
    intro hosts
    induction hosts with
    | nil => intro n; simp [spawn]
    | cons h hs ih =>
      intro n
      obtain ⟨h1, h2⟩ := ih (n + 1)
      refine ⟨by simp [spawn, h1, List.range'], ?_⟩
      intro t ht
      simp only [spawn, List.mem_cons] at ht
      rcases ht with rfl | ht
      · rfl
      · exact h2 t ht
  obtain ⟨h1, h2⟩ := hspawn c.Hosts 0
  have hsent : ∀ l : List Task, (∀ t ∈ l, t.phase = .created) → l.flatMap (Task.sent w) = [] := by
    intro l hl
    induction l with
    | nil => rfl
    | cons t l ih =>
      have ht := hl t (by simp)
      simp only [List.flatMap_cons, Task.sent, ht, List.nil_append]
      exact ih fun t ht => hl t (by simp [ht])
  have hdel : ∀ l : List Task, (∀ t ∈ l, t.phase = .created) → l.countP Task.delivered = 0 := by
    intro l hl
    rw [List.countP_eq_zero]
    intro t ht
    simp [Task.delivered, hl t ht]
  constructor
  · simpa [Cluster.init, List.range_eq_range'] using h1
  · intro t ht config p e hp
    have := h2 t (by simpa [Cluster.init] using ht)
    rw [this] at hp
    cases hp
  · simp [Cluster.init, hsent _ h2]
  · simp [Cluster.init, hsent _ h2, List.reduceOption]
  · rfl
  · simp [Cluster.init, hdel _ h2]

theorem Inv.step {c : Cluster} {w : World} {s : RunState} (cmd : String) (cmdStdin : List Nat)
    (hinv : Inv c w s) (i : Nat) : Inv c w (s.step c w cmd cmdStdin i) := by
  unfold RunState.step
  split
  · exact hinv
  · split
    · exact hinv
    · rename_i t ht
      obtain ⟨l1, l2, hl, hset⟩ := getElem?_split ht
      have hkeep := hinv
      obtain ⟨hidx, hpend, hrecv, hstd, hcap, hbuf⟩ := hinv
      obtain ⟨auth, results, tasks, received, stdins, crashed⟩ := s
      simp only at hl hset hidx hpend hrecv hstd hcap hbuf ⊢
      subst hl
      have hrest : ∀ t' : Task, t'.idx = t.idx →
          (∀ config p e, t'.phase = .running config p e →
            p = Host.reports (w.dial t.idx) ∨ p = []) →
          ∀ x ∈ l1 ++ t' :: l2, ∀ config p e, x.phase = .running config p e →
            p = Host.reports (w.dial x.idx) ∨ p = [] := by
        intro t' hi ht' x hx config p e hp
        simp only [List.mem_append, List.mem_cons] at hx
        rcases hx with h | rfl | h
        · exact hpend x (by simp [h]) config p e hp
        · rw [hi]; exact ht' config p e hp
        · exact hpend x (by simp [h]) config p e hp
      split
      · rename_i hph
        constructor
        · simpa [hset] using hidx
        · rw [hset]
          exact hrest _ rfl (fun config p e hp => by cases hp)
        · simpa [hset, Task.sent, hph] using hrecv
        · simpa [hset, Task.sent, hph] using hstd
        · exact hcap
        · simpa [hset, Task.delivered, hph, List.countP_cons] using hbuf
      · rename_i hph
        constructor
        · simpa [hset] using hidx
        · rw [hset]
          refine hrest _ rfl (fun config p e hp => ?_)
          simp only [Phase.running.injEq] at hp
          left
          rw [← hp.2.1, Host.run_published]
        · have : ∀ p : List (Option Writer), (if p = [] then p else []) = [] := by
            intro p; split <;> simp_all
          simp only [hset, List.flatMap_append, List.flatMap_cons, Task.sent, hph,
            Host.run_published, this] at hrecv ⊢
          exact hrecv
        · have : ∀ p : List (Option Writer), (if p = [] then p else []) = [] := by
            intro p; split <;> simp_all
          simp only [hset, List.flatMap_append, List.flatMap_cons, Task.sent, hph,
            Host.run_published, this] at hstd ⊢
          exact hstd
        · exact hcap
        · simpa [hset, Task.delivered, hph, List.countP_cons] using hbuf
      · rename_i config v pending exit hph
        split
        · have hv := hpend t (by simp) config (v :: pending) exit hph
          have hlen := Host.reports_length_le (w.dial t.idx)
          have hrep : Host.reports (w.dial t.idx) = [v] ∧ pending = [] := by
            rcases hv with h | h
            · rw [← h] at hlen ⊢
              simp only [List.length_cons] at hlen
              have : pending = [] := List.length_eq_zero.mp (by omega)
              simp [this]
            · cases h
          obtain ⟨hrep, hp0⟩ := hrep
          subst hp0
          constructor
          · simpa [hset] using hidx
          · rw [hset]
            exact hrest _ rfl (fun config p e hp => by
              simp only [Phase.running.injEq] at hp
              right; exact hp.2.1.symm)
          · simp only [hset, List.flatMap_append, List.flatMap_cons, Task.sent, hph, hrep,
              List.length_append] at hrecv ⊢
            simp at hrecv ⊢
            omega
          · simp only [hset, List.flatMap_append, List.flatMap_cons, Task.sent, hph, hrep,
              List.reduceOption_append] at hstd ⊢
            simp at hstd ⊢
            cases v with
            | none => simpa [List.reduceOption] using hstd
            | some stdin =>
              simp only [List.reduceOption_cons_of_some]
              refine List.Perm.trans ?_ List.perm_middle.symm
              refine List.Perm.trans (List.perm_append_comm) ?_
              simpa using hstd
          · exact hcap
          · simpa [hset, Task.delivered, hph, List.countP_cons] using hbuf
        · exact hkeep
      · rename_i config result hph
        split
        · constructor
          · simpa [hset] using hidx
          · rw [hset]
            exact hrest _ rfl (fun config p e hp => by cases hp)
          · simpa [hset, Task.sent, hph] using hrecv
          · simpa [hset, Task.sent, hph] using hstd
          · exact hcap
          · simp [hset, Task.delivered, hph, List.countP_cons] at hbuf ⊢
            omega
        · exact hkeep
      · exact ⟨hidx, hpend, hrecv, hstd, hcap, hbuf⟩
      · exact hkeep

theorem Inv.foldl {c : Cluster} {w : World} (cmd : String) (cmdStdin : List Nat)
    (sched : List Nat) : ∀ s : RunState, Inv c w s →
      Inv c w (sched.foldl (RunState.step c w cmd cmdStdin) s) := by
  induction sched with
  | nil => intro s h; exact h
  | cons i sched ih => intro s h; exact ih _ (h.step cmd cmdStdin i)

theorem Inv.exec (c : Cluster) (w : World) (cmd : String) (cmdStdin : List Nat)
    (sched : List Nat) : Inv c w (c.exec w cmd cmdStdin sched) :=
  Inv.foldl cmd cmdStdin sched _ (Inv.init c w)

theorem Inv.await {c : Cluster} {w : World} (cmd : String) (cmdStdin : List Nat)
    (sched : List Nat) : ∀ (s : RunState) (command : Command), Inv c w s →
      RunState.await c w cmd cmdStdin s sched = some command →
      ∃ s1, Inv c w s1 ∧ s1.returnValue c = some command := by
  induction sched with
  | nil => intro s command h hr; exact ⟨s, h, hr⟩
  | cons i sched ih =>
    intro s command h hr
    unfold RunState.await at hr
    split at hr
    · rename_i command1 hc
      cases hr
      exact ⟨s, h, hc⟩
    · exact ih _ _ (h.step cmd cmdStdin i) hr

theorem flatMap_length_le {α β : Type} (f : α → List β) (l : List α)
    (h : ∀ t ∈ l, (f t).length ≤ 1) : (l.flatMap f).length ≤ l.length := by
  induction l with
  | nil => simp
  | cons a l ih =>
    have h1 := h a (by simp)
    have h2 := ih fun t ht => h t (by simp [ht])
    simp only [List.flatMap_cons, List.length_append, List.length_cons]
    omega

theorem flatMap_length_lt {α β : Type} (f : α → List β) (l : List α)
    (h : ∀ t ∈ l, (f t).length ≤ 1) (hex : ∃ t ∈ l, f t = []) :
    (l.flatMap f).length < l.length := by
  induction l with
  | nil => simp at hex
  | cons a l ih =>
    have h1 := h a (by simp)
    have h2 := flatMap_length_le f l fun t ht => h t (by simp [ht])
    simp only [List.flatMap_cons, List.length_append, List.length_cons]
    obtain ⟨t, ht, h0⟩ := hex
    simp only [List.mem_cons] at ht
    rcases ht with rfl | ht
    · rw [h0, List.length_nil]; omega
    · have := ih (fun t ht => h t (by simp [ht])) ⟨t, ht, h0⟩
      omega

theorem flatMap_length_eq {α β : Type} (f : α → List β) (l : List α)
    (h : ∀ t ∈ l, (f t).length ≤ 1) (heq : (l.flatMap f).length = l.length) :
    ∀ t ∈ l, f t ≠ [] := by
  intro t ht h0
  have := flatMap_length_lt f l h ⟨t, ht, h0⟩
  omega

theorem Inv.tasks_length {c : Cluster} {w : World} {s : RunState} (h : Inv c w s) :
    s.tasks.length = c.Hosts.length := by
  have := congrArg List.length h.idx
  simpa using this

theorem Task.sent_eq (w : World) (t : Task) (h : t.sent w ≠ []) :
    t.sent w = Host.reports (w.dial t.idx) := by
  unfold Task.sent at h ⊢
  split
  · simp_all
  · simp_all
  · split
    · rfl
    · simp_all
  · rfl

theorem Task.sent_nil_of_reports (w : World) (t : Task) (h : Host.reports (w.dial t.idx) = []) :
    t.sent w = [] := by
  by_contra hne
  exact hne ((Task.sent_eq w t hne).trans h)

theorem sent_reduceOption (w : World) (l : List Task)
    (h : ∀ t ∈ l, t.sent w = Host.reports (w.dial t.idx)) :
    (l.flatMap (Task.sent w)).reduceOption =
      (l.map Task.idx).filterMap fun i => setupWriter (w.dial i) := by
  induction l with
  | nil => simp [List.reduceOption]
  | cons t l ih =>
    rw [List.flatMap_cons, List.reduceOption_append, ih fun t ht => h t (by simp [ht]),
      h t (by simp), Host.reports_reduceOption, List.map_cons, List.filterMap_cons]
    cases setupWriter (w.dial t.idx) <;> rfl

theorem Inv.stdins_of_received {c : Cluster} {w : World} {s : RunState} (h : Inv c w s)
    (hr : s.received = c.Hosts.length) :
    s.stdins.Perm ((List.range c.Hosts.length).filterMap fun i => setupWriter (w.dial i)) := by
  have hlen : (s.tasks.flatMap (Task.sent w)).length = s.tasks.length := by
    rw [← h.received, hr, h.tasks_length]
  have hne := flatMap_length_eq (Task.sent w) s.tasks (fun t _ => Task.sent_length_le w t) hlen
  have := sent_reduceOption w s.tasks fun t ht => Task.sent_eq w t (hne t ht)
  rw [h.idx] at this
  rw [← this]
  exact h.stdins

theorem Inv.received_lt {c : Cluster} {w : World} {s : RunState} (h : Inv c w s) (i : Nat)
    (hi : i < c.Hosts.length) (h0 : Host.reports (w.dial i) = []) :
    s.received < c.Hosts.length := by
  have hmem : i ∈ s.tasks.map Task.idx := by rw [h.idx]; simpa using hi
  obtain ⟨t, ht, rfl⟩ := List.mem_map.mp hmem
  rw [h.received, ← h.tasks_length]
  exact flatMap_length_lt _ _ (fun t _ => Task.sent_length_le w t)
    ⟨t, ht, Task.sent_nil_of_reports w t h0⟩

theorem Cluster.Run_blocks (c : Cluster) (w : World) (cmd : String) (cmdStdin : List Nat)
    (sched : List Nat) (i : Nat) (hi : i < c.Hosts.length) (h0 : Host.reports (w.dial i) = []) :
    c.Run w cmd cmdStdin sched = none := by
  cases hrun : c.Run w cmd cmdStdin sched with
  | none => rfl
  | some command =>
    exfalso
    obtain ⟨s1, hinv, hret⟩ := Inv.await cmd cmdStdin sched _ _ (Inv.init c w) hrun
    have hlt := hinv.received_lt i hi h0
    unfold RunState.returnValue at hret
    split at hret
    · cases hret
    · split at hret
      · omega
      · cases hret

/-! ## `Cluster.Run` returns when every host publishes -/

theorem getElem?_middle {α : Type} (l1 l2 : List α) (t : α) :
    (l1 ++ t :: l2)[l1.length]? = some t := by
  induction l1 with
  | nil => simp
  | cons a l1 ih => simpa using ih

theorem set_middle {α : Type} (l1 l2 : List α) (t x : α) :
    (l1 ++ t :: l2).set l1.length x = l1 ++ x :: l2 := by
  induction l1 with
  | nil => rfl
  | cons a l1 ih => simp [ih]

theorem RunState.step_created (c : Cluster) (w : World) (cmd : String) (cmdStdin : List Nat)
    (s : RunState) (l1 l2 : List Task) (t : Task) (hc : s.crashed = false)
    (ht : s.tasks = l1 ++ t :: l2) (hph : t.phase = .created) :
    ∃ auth, s.step c w cmd cmdStdin l1.length =
      { s with auth := auth, tasks := l1 ++ { t with phase := .appended } :: l2 } := by
  unfold RunState.step
  simp only [hc, ht, getElem?_middle, set_middle, hph]
  exact ⟨_, rfl⟩

theorem RunState.step_appended (c : Cluster) (w : World) (cmd : String) (cmdStdin : List Nat)
    (s : RunState) (l1 l2 : List Task) (t : Task) (hc : s.crashed = false)
    (ht : s.tasks = l1 ++ t :: l2) (hph : t.phase = .appended) :
    ∃ config exit, s.step c w cmd cmdStdin l1.length =
      { s with tasks := l1 ++
          { t with phase := .running config (Host.reports (w.dial t.idx)) exit } :: l2 } := by
  unfold RunState.step
  simp only [hc, ht, getElem?_middle, set_middle, hph, Host.run_published]
  exact ⟨_, _, rfl⟩

theorem RunState.step_publish (c : Cluster) (w : World) (cmd : String) (cmdStdin : List Nat)
    (s : RunState) (l1 l2 : List Task) (t : Task) (config : ClientConfig)
    (v : Option Writer) (pending : List (Option Writer)) (exit : Exit)
    (hc : s.crashed = false) (hr : s.received < c.Hosts.length)
    (ht : s.tasks = l1 ++ t :: l2) (hph : t.phase = .running config (v :: pending) exit) :
    ∃ stdins, s.step c w cmd cmdStdin l1.length =
      { s with received := s.received + 1, stdins := stdins,
               tasks := l1 ++ { t with phase := .running config pending exit } :: l2 } := by
  unfold RunState.step
  simp only [hc, ht, getElem?_middle, set_middle, hph, hr]
  exact ⟨_, rfl⟩


theorem exec_setupSchedule (c : Cluster) (w : World) (cmd : String) (cmdStdin : List Nat)
    (hrep : ∀ i, i < c.Hosts.length → Host.reports (w.dial i) ≠ []) :
    ∀ (rest : List Host) (k : Nat) (s : RunState) (done : List Task),
      s.tasks = done ++ spawn k rest → done.length = k → s.crashed = false →
      s.received = k → k + rest.length = c.Hosts.length →
      ((setupSchedule k rest.length).foldl (RunState.step c w cmd cmdStdin) s).crashed = false
        ∧ ((setupSchedule k rest.length).foldl (RunState.step c w cmd cmdStdin) s).received =
            c.Hosts.length := by
  intro rest
  induction rest with
  | nil =>
    intro k s done _ _ hc hr hk
    simp only [List.length_nil, Nat.add_zero] at hk
    simp [setupSchedule, hc, hr, hk]
  | cons h rest ih =>
    intro k s done ht hd hc hr hk
    simp only [List.length_cons] at hk
    simp only [List.length_cons, setupSchedule, List.foldl_cons]
    subst hd
    simp only [spawn] at ht
    obtain ⟨auth, h1⟩ := RunState.step_created c w cmd cmdStdin s done _ _ hc ht rfl
    rw [h1]
    obtain ⟨config, exit, h2⟩ := RunState.step_appended c w cmd cmdStdin
      { s with auth := auth,
               tasks := done ++ { idx := done.length, host := h, phase := .appended } ::
                 spawn (done.length + 1) rest }
      done _ _ hc rfl rfl
    rw [h2]
    simp only
    cases hp : Host.reports (w.dial done.length) with
    | nil => exact absurd hp (hrep _ (by omega))
    | cons v pending =>
      obtain ⟨stdins, h3⟩ := RunState.step_publish c w cmd cmdStdin
        { s with auth := auth,
                 tasks := done ++ { idx := done.length, host := h,
                                    phase := .running config (v :: pending) exit } ::
                   spawn (done.length + 1) rest }
        done _ _ config v pending exit hc (by simp only [hr]; omega) rfl rfl
      rw [h3]
      refine ih (done.length + 1) _
        (done ++ [{ idx := done.length, host := h, phase := .running config pending exit }])
        (by simp) (by simp) hc (by simp [hr]) (by omega)

theorem await_of_foldl (c : Cluster) (w : World) (cmd : String) (cmdStdin : List Nat)
    (sched : List Nat) : ∀ s : RunState,
      ((sched.foldl (RunState.step c w cmd cmdStdin) s).returnValue c).isSome →
      (RunState.await c w cmd cmdStdin s sched).isSome := by
  induction sched with
  | nil => intro s h; exact h
  | cons i sched ih =>
    intro s h
    unfold RunState.await
    split
    · rfl
    · exact ih _ h

/-- `Cluster.Run` does return when every host publishes a value (no PTY
request fails after the stdin pipe was acquired): it returns under the schedule
in which the goroutines, one after the other, run up to their publish step. -/
theorem Cluster.Run_returns (c : Cluster) (w : World) (cmd : String) (cmdStdin : List Nat)
    (hrep : ∀ i, i < c.Hosts.length → Host.reports (w.dial i) ≠ []) :
    (c.Run w cmd cmdStdin (setupSchedule 0 c.Hosts.length)).isSome := by
  refine await_of_foldl c w cmd cmdStdin _ _ ?_
  obtain ⟨h1, h2⟩ := exec_setupSchedule c w cmd cmdStdin hrep c.Hosts 0 (c.init w) []
    rfl rfl rfl rfl (by simp)
  simp [RunState.returnValue, h1, h2]

/-! ## The claims about `Host.run` and `Cluster.Run` -/

/-- C1: when the PTY request fails after the three earlier setup steps
succeeded, `Host.run` returns its `Result` having sent nothing on the `stdins`
channel (the three sibling failure paths send `nil`), and `Cluster.Run` on a
cluster with such a host never returns, under any schedule of its goroutines:
its receive loop waits for a value that no task sends. -/
theorem Host.run_pty_failure_publishes_nothing :
    (∀ (host : Host) (cmd : String) (cmdStdin : List Nat) (config : ClientConfig) (pipe : Writer),
        host.run cmd cmdStdin config (.ok { NewSession := .ok (Session.ptyRefused pipe) }) =
          { published := [],
            pipeWrites := [(pipe, cmdStdin), (pipe, [0x04])],
            exit := .returned { Output := "",
                                Error := some "failed to request pty: pty refused",
                                Host := host } })
      ∧ (∀ (cmd : String) (cmdStdin : List Nat) (sched : List Nat),
          Cluster.Run { Hosts := [Host.plain "a"] } World.ptyRefused cmd cmdStdin sched = none)
      ∧ (∀ (cmd : String) (cmdStdin : List Nat) (sched : List Nat),
          Cluster.Run { Hosts := [Host.plain "a", Host.plain "b"] }
              World.readyThenPtyRefused cmd cmdStdin sched = none) := by
  refine ⟨fun _ _ _ _ _ => rfl, fun cmd cmdStdin sched => ?_, fun cmd cmdStdin sched => ?_⟩
  · exact Cluster.Run_blocks _ _ cmd cmdStdin sched 0 (by decide) rfl
  · exact Cluster.Run_blocks _ _ cmd cmdStdin sched 1 (by decide) rfl

theorem Host.reports_mem_some (conn : Except String Client) (p : Writer) :
    some p ∈ Host.reports conn ↔
      ∃ client session, conn = .ok client ∧ client.NewSession = .ok session ∧
        session.StdinPipe = .ok p ∧ session.RequestPty "xterm" 80 40 terminalModes = none := by
  unfold Host.reports
  cases conn with
  | error e => simp
  | ok client =>
    simp only
    cases h1 : client.NewSession with
    | error e => simp [h1]
    | ok session =>
      simp only
      cases h2 : session.StdinPipe with
      | error e => simp [h1, h2]
      | ok pipe =>
        simp only
        cases h3 : session.RequestPty "xterm" 80 40 terminalModes with
        | some e =>
          simp only [List.not_mem_nil, Except.ok.injEq, false_iff, not_exists, not_and]
          intro client1 session1 hc hs _ hpty
          subst hc
          rw [h1] at hs
          cases hs
          rw [h3] at hpty
          cases hpty
        | none =>
          simp only [List.mem_singleton, Option.some.injEq, Except.ok.injEq]
          constructor
          · rintro rfl
            exact ⟨client, session, rfl, h1, h2, h3⟩
          · rintro ⟨client1, session1, hc, hs, hp, _⟩
            subst hc
            rw [h1] at hs
            cases hs
            rw [h2] at hp
            cases hp
            rfl

theorem setupWriter_eq_some (conn : Except String Client) (p : Writer) :
    setupWriter conn = some p ↔ some p ∈ Host.reports conn := by
  have h := Host.reports_reduceOption conn
  have hlen := Host.reports_length_le conn
  constructor
  · intro hs
    rw [hs] at h
    have : p ∈ (Host.reports conn).reduceOption := by rw [h]; simp
    exact List.reduceOption_mem_iff.mp this
  · intro hm
    have : p ∈ (Host.reports conn).reduceOption := List.reduceOption_mem_iff.mpr hm
    rw [h] at this
    simpa [Option.mem_toList] using this

/-- C2: `Host.run` publishes at most one value, and it publishes the non-nil
writer `p` if and only if connect, session creation, stdin-pipe acquisition (giving
`p`) and the PTY request all succeeded; and the `stdins` of a `Command` returned by
`Cluster.Run`, under any schedule, are (up to order) exactly those writers, one for
each host whose four setup steps succeeded and none for the others. -/
theorem Cluster.Run_stdins_are_the_ready_writers :
    (∀ (host : Host) (cmd : String) (cmdStdin : List Nat) (config : ClientConfig)
        (conn : Except String Client),
        (host.run cmd cmdStdin config conn).published.length ≤ 1
          ∧ ∀ p : Writer,
              ((some p ∈ (host.run cmd cmdStdin config conn).published ↔
                  ∃ client session, conn = .ok client ∧ client.NewSession = .ok session ∧
                    session.StdinPipe = .ok p ∧
                    session.RequestPty "xterm" 80 40 terminalModes = none)
                ∧ (setupWriter conn = some p ↔
                    some p ∈ (host.run cmd cmdStdin config conn).published)))
      ∧ (∀ (c : Cluster) (w : World) (cmd : String) (cmdStdin : List Nat) (sched : List Nat)
          (command : Command),
          c.Run w cmd cmdStdin sched = some command →
            command.stdins.Perm
              ((List.range c.Hosts.length).filterMap fun i => setupWriter (w.dial i))) := by
  refine ⟨fun host cmd cmdStdin config conn => ?_, ?_⟩
  · rw [Host.run_published]
    exact ⟨Host.reports_length_le conn, fun p =>
      ⟨Host.reports_mem_some conn p, setupWriter_eq_some conn p⟩⟩
  · intro c w cmd cmdStdin sched command hrun
    obtain ⟨s1, hinv, hret⟩ := Inv.await cmd cmdStdin sched _ _ (Inv.init c w) hrun
    unfold RunState.returnValue at hret
    split at hret
    · cases hret
    · split at hret
      · rename_i hr
        cases hret
        exact hinv.stdins_of_received hr
      · cases hret

/-- C2, at a concrete run: of two hosts the first is ready to execute with
writer 7 and the second is unreachable; `Cluster.Run` returns and the writer set
of its `Command` is the single writer 7. -/
theorem Cluster.Run_stdins_are_the_ready_writers_witness :
    ∃ command : Command,
      Cluster.Run { Hosts := [Host.plain "a", Host.plain "b"] } World.firstReady "uptime" []
          [0, 0, 1, 1, 1, 0] = some command
        ∧ command.stdins = [7]
        ∧ command.stdins.Perm
            ((List.range 2).filterMap fun i => setupWriter (World.firstReady.dial i)) :=
  ⟨_, rfl, rfl,
    Cluster.Run_stdins_are_the_ready_writers.2 { Hosts := [Host.plain "a", Host.plain "b"] }
      World.firstReady "uptime" [] [0, 0, 1, 1, 1, 0] _ rfl⟩

/-- C4, as stated, fails: the capacity of the result channel is the constant
100, which is less than the number of hosts of a cluster of 101 hosts. -/
theorem Cluster.Run_results_capacity_counterexample :
    ¬ ((Cluster.mk (List.replicate 101 (Host.plain "a"))).Hosts.length ≤
        ((Cluster.mk (List.replicate 101 (Host.plain "a"))).init World.unreachable).results.cap) := by
  simp [Cluster.init]

/-- C4, amended: for every cluster of at most 100 hosts, in every state the
goroutines of `Cluster.Run` can reach with nothing reading the result channel,
the channel has capacity 100, at least the number of hosts; while some host has
not delivered its `Result` the buffer is not full; and a host that has its
`Result` ready puts it on the channel at its next step. -/
theorem Cluster.Run_results_have_room (c : Cluster) (w : World) (cmd : String)
    (cmdStdin : List Nat) (sched : List Nat) (hsize : c.Hosts.length ≤ 100) :
    (c.exec w cmd cmdStdin sched).results.cap = 100
      ∧ c.Hosts.length ≤ (c.exec w cmd cmdStdin sched).results.cap
      ∧ (∀ t ∈ (c.exec w cmd cmdStdin sched).tasks, t.delivered = false →
          (c.exec w cmd cmdStdin sched).results.buf.length <
            (c.exec w cmd cmdStdin sched).results.cap)
      ∧ (∀ (i : Nat) (t : Task) (config : ClientConfig) (result : Result),
          (c.exec w cmd cmdStdin sched).crashed = false →
          (c.exec w cmd cmdStdin sched).tasks[i]? = some t →
          t.phase = .running config [] (.returned result) →
          ((c.exec w cmd cmdStdin sched).step c w cmd cmdStdin i).results.buf =
            (c.exec w cmd cmdStdin sched).results.buf ++ [result]) := by
  have hinv := Inv.exec c w cmd cmdStdin sched
  generalize c.exec w cmd cmdStdin sched = s at hinv
  have hroom : ∀ t ∈ s.tasks, t.delivered = false → s.results.buf.length < s.results.cap := by
    intro t ht hd
    rw [hinv.buf, hinv.cap]
    have hlt : s.tasks.countP Task.delivered < s.tasks.length := by
      rw [List.countP_eq_length_filter]
      exact List.length_filter_lt_length_iff_exists.mpr ⟨t, ht, by simp [hd]⟩
    have := hinv.tasks_length
    omega
  refine ⟨hinv.cap, by rw [hinv.cap]; exact hsize, hroom, ?_⟩
  intro i t config result hc ht hph
  have hmem : t ∈ s.tasks := by
    obtain ⟨hi, rfl⟩ := List.getElem?_eq_some.mp ht
    exact List.getElem_mem hi
  have hlt := hroom t hmem (by simp [Task.delivered, hph])
  unfold RunState.step
  simp [hc, ht, hph, hlt]

/-- C4 amended, at a concrete run: a cluster of one unreachable host whose
goroutine has taken three steps (it has handed `nil` to the receive loop and
holds its `Result`) with nothing reading the result channel: the channel has
room, and the next step of the goroutine puts the `Result` on it. -/
theorem Cluster.Run_results_have_room_witness :
    (Cluster.mk [Host.plain "a"]).Hosts.length ≤ 100
      ∧ ((Cluster.mk [Host.plain "a"]).exec World.unreachable "uptime" [] [0, 0, 0]).results.buf = []
      ∧ (((Cluster.mk [Host.plain "a"]).exec World.unreachable "uptime" [] [0, 0, 0]).step
            (Cluster.mk [Host.plain "a"]) World.unreachable "uptime" [] 0).results.buf =
          ((Cluster.mk [Host.plain "a"]).exec World.unreachable "uptime" [] [0, 0, 0]).results.buf ++
            [{ Output := "", Error := some "Unable to connect: connection refused",
               Host := Host.plain "a" }]
      ∧ ((Cluster.mk [Host.plain "a"]).exec World.unreachable "uptime" [] [0, 0, 0]).results.buf.length <
          ((Cluster.mk [Host.plain "a"]).exec World.unreachable "uptime" [] [0, 0, 0]).results.cap :=
  ⟨by decide, rfl,
    (Cluster.Run_results_have_room (Cluster.mk [Host.plain "a"]) World.unreachable "uptime" []
      [0, 0, 0] (by decide)).2.2.2 0
      { idx := 0, host := Host.plain "a",
        phase := .running { User := "root", Auth := [createKeyring World.unreachable] } []
          (.returned { Output := "", Error := some "Unable to connect: connection refused",
                       Host := Host.plain "a" }) }
      { User := "root", Auth := [createKeyring World.unreachable] }
      { Output := "", Error := some "Unable to connect: connection refused",
        Host := Host.plain "a" }
      rfl rfl rfl,
    (Cluster.Run_results_have_room (Cluster.mk [Host.plain "a"]) World.unreachable "uptime" []
      [0, 0, 0] (by decide)).2.2.1
      { idx := 0, host := Host.plain "a",
        phase := .running { User := "root", Auth := [createKeyring World.unreachable] } []
          (.returned { Output := "", Error := some "Unable to connect: connection refused",
                       Host := Host.plain "a" }) }
      (List.mem_singleton.mpr rfl)
      rfl⟩

theorem Cluster.Run_empty (w : World) (cmd : String) (cmdStdin : List Nat) (sched : List Nat) :
    Cluster.Run { Hosts := [] } w cmd cmdStdin sched =
      some { Results := { cap := 100, buf := [] }, stdins := [] } := by
  cases sched <;> rfl

/-- C5: with an empty cluster (`clusterssh uptime`, which `parseArgs` accepts)
the loop of `main` is not done at its start: `Cluster.Run` returns at once, and
then, with no interrupt request, `main` stays blocked in its `select` for ever
(no `Result` can arrive, and no timer runs); it returns only after an interrupt
request, when the five-second timer expires. -/
theorem main.loop_waits_on_empty_cluster :
    (∀ (lib : String → Except String URL) (userEnv : String),
        parseArgs lib userEnv ["clusterssh", "uptime"] =
          .ok { cmd := "uptime", hosts := { Hosts := [] } })
      ∧ (∀ (lib : String → Except String URL) (userEnv : String) (stdinIsTerminal : Bool)
          (stdin : List Nat) (w : World) (sched : List Nat) (n : Nat),
          main lib userEnv ["clusterssh", "uptime"] stdinIsTerminal stdin w sched
              (List.replicate n LoopEvent.timeout) =
            .loop (.waiting { runningHosts := 0, printed := [], stopSignals := 0, timers := 0 }))
      ∧ (∀ (lib : String → Except String URL) (userEnv : String) (stdinIsTerminal : Bool)
          (stdin : List Nat) (w : World) (sched : List Nat),
          main lib userEnv ["clusterssh", "uptime"] stdinIsTerminal stdin w sched
              [LoopEvent.signal, LoopEvent.timeout] =
            .loop (.returned { runningHosts := 0, printed := [], stopSignals := 1, timers := 1 })) := by
  have hargs : ∀ (lib : String → Except String URL) (userEnv : String),
      parseArgs lib userEnv ["clusterssh", "uptime"] =
        .ok { cmd := "uptime", hosts := { Hosts := [] } } := fun _ _ => rfl
  refine ⟨hargs, ?_, ?_⟩
  · intro lib userEnv stdinIsTerminal stdin w sched n
    have hloop : ∀ n : Nat,
        main.loop { runningHosts := 0, printed := [], stopSignals := 0, timers := 0 }
            (List.replicate n LoopEvent.timeout) =
          .waiting { runningHosts := 0, printed := [], stopSignals := 0, timers := 0 } := by
      intro n
      induction n with
      | zero => rfl
      | succ n ih => simpa [List.replicate, main.loop] using ih
    simp only [main, hargs, Cluster.Run_empty, main.start, List.length_nil]
    exact congrArg MainOutcome.loop (hloop n)
  · intro lib userEnv stdinIsTerminal stdin w sched
    simp only [main, hargs, Cluster.Run_empty, main.start, List.length_nil]
    rfl

theorem net.SplitHostPort_error (hostport : List Char)
    (h : (net.SplitHostPort hostport).2.2 ≠ none) : (net.SplitHostPort hostport).1 = [] := by
  unfold net.SplitHostPort at h ⊢
  simp only at h ⊢
  repeat' split
  all_goals first | rfl | (exfalso; simp_all)

/-- C8: `ParseHost` never splits off the port: for every accepted host spec
the returned `Port` is "22" and `Name` is the whole host part, port included.
For `example.com:2222` it returns `Name = "example.com:2222"` and `Port = "22"`. -/
theorem ParseHost_ignores_given_port :
    (∀ lib : String → Except String URL,
        ParseHost lib "" "example.com:2222" =
          .ok { Name := "example.com:2222", Port := "22", User := "root", Password := none })
      ∧ (∀ lib : String → Except String URL,
          ParseHost lib "joe" "bob:pw@example.com:2222" =
            .ok { Name := "example.com:2222", Port := "22", User := "bob", Password := some "pw" })
      ∧ net.SplitHostPort "example.com:2222".toList =
        ("example.com".toList, "2222".toList, none)
      ∧ (∀ (lib : String → Except String URL) (userEnv input : String),
          match url.Parse lib input, ParseHost lib userEnv input with
          | .ok u, .ok host => host.Name = u.Host ∧ host.Port = "22"
          | .ok _, .error _ => False
          | .error _, .ok _ => False
          | .error _, .error _ => True) := by
  refine ⟨fun _ => rfl, fun _ => rfl, rfl, fun lib userEnv input => ?_⟩
  unfold ParseHost
  cases url.Parse lib input with
  | error e => simp
  | ok u =>
    simp only
    by_cases h : (net.SplitHostPort u.Host.toList).2.2 = none
    · rw [if_pos (Or.inl h)]
      exact ⟨rfl, rfl⟩
    · rw [if_pos (Or.inr (net.SplitHostPort_error _ h))]
      exact ⟨rfl, rfl⟩

/-- C10: the authentication list of a host contains the passwords of the
hosts whose goroutines ran before it: with hosts `a` (password `secret-a`) and
`b` (no password), when the goroutine of `a` runs first the config of `b` offers
`secret-a`, and changing only the password of `a` changes the list of `b`. -/
theorem Cluster.Run_auth_carries_other_hosts_passwords (w : World) (cmd : String)
    (cmdStdin : List Nat) :
    ((Cluster.mk [Host.withPassword "a" "secret-a", Host.plain "b"]).exec w cmd cmdStdin
          [0, 0, 1, 1]).configs =
        [some { User := "root", Auth := [createKeyring w, .password "secret-a"] },
         some { User := "root", Auth := [createKeyring w, .password "secret-a"] }]
      ∧ ((Cluster.mk [Host.withPassword "a" "other", Host.plain "b"]).exec w cmd cmdStdin
          [0, 0, 1, 1]).configs =
        [some { User := "root", Auth := [createKeyring w, .password "other"] },
         some { User := "root", Auth := [createKeyring w, .password "other"] }]
      ∧ ((Cluster.mk [Host.withPassword "a" "secret-a", Host.plain "b"]).exec w cmd cmdStdin
          [1, 1, 0, 0]).configs =
        [some { User := "root", Auth := [createKeyring w, .password "secret-a"] },
         some { User := "root", Auth := [createKeyring w] }]
      ∧ ((Cluster.mk [Host.withPassword "a" "secret-a", Host.plain "b"]).exec w cmd cmdStdin
            [0, 0, 1, 1]).configs[1]? ≠
          ((Cluster.mk [Host.withPassword "a" "other", Host.plain "b"]).exec w cmd cmdStdin
            [0, 0, 1, 1]).configs[1]? := by
  refine ⟨rfl, rfl, rfl, ?_⟩
  intro h
  have h1 : ((Cluster.mk [Host.withPassword "a" "secret-a", Host.plain "b"]).exec w cmd cmdStdin
      [0, 0, 1, 1]).configs[1]? =
        some (some { User := "root", Auth := [createKeyring w, .password "secret-a"] }) := rfl
  have h2 : ((Cluster.mk [Host.withPassword "a" "other", Host.plain "b"]).exec w cmd cmdStdin
      [0, 0, 1, 1]).configs[1]? =
        some (some { User := "root", Auth := [createKeyring w, .password "other"] }) := rfl
  rw [h1, h2] at h
  simp at h

end Clusterssh
